import Mathlib

/-!
Shallow embedding of the gasless USDC remittance relay (TypeScript sources:
`db.ts`, `relayer.ts`, `workflow.ts`).  Pure data is modelled directly; the
in-memory `Map`-backed database becomes an association list threaded through
the functions that mutate it; calls into the Solana RPC connection become
explicit response values (`Except Unit _` distinguishes a thrown error from
a normal answer, mirroring the try/catch structure of the source).
-/

namespace Remit

/-- Lifecycle states, from `enum TransactionStatus` in db.ts. -/
inductive TransactionStatus where
  | CREATED
  | SUBMITTED
  | PROCESSED
  | CONFIRMED
  | FINALIZED
  | FAILED
deriving DecidableEq, Repr

open TransactionStatus

/-- Position of a lifecycle state in the forward ordering
`CREATED < SUBMITTED < PROCESSED < CONFIRMED < FINALIZED` used by the spec
(`ACCEPTED` in the spec's vocabulary is `CREATED` in the code). -/
def stateRank : TransactionStatus → Nat
  | CREATED => 0
  | SUBMITTED => 1
  | PROCESSED => 2
  | CONFIRMED => 3
  | FINALIZED => 4
  | FAILED => 5

/-- Public keys.  A raw key is an opaque base58 string; `ata mint owner` is
the canonically derived associated token account produced by the library
function `getAssociatedTokenAddressSync(mint, owner)` (a collision-free
derivation, modelled as a constructor). -/
inductive Pubkey where
  | raw (s : String)
  | ata (mint owner : Pubkey)
deriving DecidableEq, Repr

/-- `PublicKey.toBase58`, an injective encoding of keys as strings. -/
def Pubkey.toBase58 : Pubkey → String
  | .raw s => s
  | .ata m o => "ata(" ++ m.toBase58 ++ "," ++ o.toBase58 ++ ")"

def getAssociatedTokenAddressSync (mint owner : Pubkey) : Pubkey := .ata mint owner

def TOKEN_PROGRAM_ID : Pubkey := .raw "TokenkegQfeZyiNwAJbNbGKPFXCWuBvf9Ss623VQ5DA"

def ASSOCIATED_TOKEN_PROGRAM_ID : Pubkey := .raw "ATokenGPvbdGVxr1b2hvZbsiqW5xWH25efTNsLJA8knL"

/-- USDC mint address on devnet, from relayer.ts. -/
def USDC_MINT : Pubkey := .raw "4zMMC9srt5Ri5X14GAgXhaHii3GnPAEERYPJgZJDncDU"

def TRANSFER_CHECKED_DISCRIMINATOR : Nat := 12

def CREATE_IDEMPOTENT_ATA_DISCRIMINATOR : Nat := 1

/-- One entry of `TransactionInstruction.keys`. -/
structure AccountMeta where
  pubkey : Pubkey
  isSigner : Bool
  isWritable : Bool
deriving DecidableEq, Repr

structure TransactionInstruction where
  programId : Pubkey
  keys : List AccountMeta
  data : List Nat
deriving DecidableEq, Repr

def defaultMeta : AccountMeta := ⟨.raw "", false, false⟩

/-- One entry of `Transaction.signatures`: a required signer together with
its signature bytes when present (signature bytes are opaque strings). -/
structure SignaturePubkeyPair where
  publicKey : Pubkey
  signature : Option String
deriving DecidableEq, Repr

/-- The decoded `@solana/web3.js` legacy `Transaction`, restricted to the
fields the relayer and workflow inspect. -/
structure Tx where
  feePayer : Option Pubkey
  recentBlockhash : Option String
  instructions : List TransactionInstruction
  signatures : List SignaturePubkeyPair
deriving DecidableEq, Repr

/-- `transaction.signature`: the first signature slot's bytes, if any. -/
def Tx.firstSignature (t : Tx) : Option String :=
  match t.signatures with
  | [] => none
  | p :: _ => p.signature

/-- `transaction.partialSign(keypair)`: fill in the signature slot belonging
to `pk` (existing signatures are preserved).  The produced signature bytes
are deterministic in the signing key and are opaque to the rest of the code,
modelled as a tagged string. -/
def Tx.addSignature (t : Tx) (pk : Pubkey) : Tx :=
  { t with signatures :=
      t.signatures.map fun p =>
        if p.publicKey = pk then { p with signature := some ("sig:" ++ pk.toBase58) } else p }

/-- `interface TransactionRecord` from db.ts.  `serializedTransaction` keeps
the decoded structure (base64 de/serialization is a bijection the core never
looks inside). -/
structure TransactionRecord where
  signature : String
  serializedTransaction : Tx
  sender : Pubkey
  recipient : Pubkey
  amount : Nat
  lastValidBlockHeight : Nat
  status : TransactionStatus
  createdAt : Nat
  updatedAt : Nat
deriving DecidableEq, Repr

structure UserRecord where
  publicKey : Pubkey
  name : String
deriving DecidableEq, Repr

/-- The in-memory database: two insertion-ordered maps, as association
lists. -/
structure Db where
  transactions : List (String × TransactionRecord)
  users : List (Pubkey × UserRecord)
deriving DecidableEq, Repr

def Db.getTransaction (db : Db) (sig : String) : Option TransactionRecord :=
  (db.transactions.find? fun p => p.1 = sig).map (·.2)

/-- `addTransaction`: insert only if the key is absent (a JS `Map` appends
new keys at the end). -/
def Db.addTransaction (db : Db) (r : TransactionRecord) : Db :=
  if db.transactions.any (fun p => p.1 = r.signature) then db
  else { db with transactions := db.transactions ++ [(r.signature, r)] }

/-- Update the first (and, for a well-formed map, only) record stored under
`sig`, setting its status and `updatedAt`. -/
def updateAssoc (l : List (String × TransactionRecord)) (sig : String)
    (st : TransactionStatus) (now : Nat) : List (String × TransactionRecord) :=
  match l with
  | [] => []
  | (k, r) :: rest =>
    if k = sig then (k, { r with status := st, updatedAt := now }) :: rest
    else (k, r) :: updateAssoc rest sig st now

def Db.updateTransactionStatus (db : Db) (sig : String) (st : TransactionStatus)
    (now : Nat) : Db :=
  { db with transactions := updateAssoc db.transactions sig st now }

def Db.isUserRegistered (db : Db) (pk : Pubkey) : Bool :=
  db.users.any fun p => p.1 = pk

/-- `isCompliant`: "For demo purposes, always return true". -/
def Db.isCompliant (_db : Db) (_pk : Pubkey) : Bool :=
  true

def TransactionStatus.isTerminal (s : TransactionStatus) : Bool :=
  s = FINALIZED || s = FAILED

def Db.getNonTerminalTransactions (db : Db) : List TransactionRecord :=
  (db.transactions.map (·.2)).filter fun r => !r.status.isTerminal

/-! ## The relayer's admission gate (relayer.ts) -/

/-- Result shape of `validateCreateAtaInstruction`. -/
structure CreateAtaResult where
  valid : Bool
  error : Option String
  targetAta : Option Pubkey
deriving DecidableEq, Repr

/-- Result shape of `validateTransferInstruction` and `validateTransaction`:
`{valid, error?, sender?, recipient?, amount?}`. -/
structure ValidationResult where
  valid : Bool
  error : Option String
  sender : Option Pubkey
  recipient : Option Pubkey
  amount : Option Nat
deriving DecidableEq, Repr

/-- `instruction.data.readBigUInt64LE(1)`: bytes 1..8, little endian. -/
def readBigUInt64LE1 (data : List Nat) : Nat :=
  (List.range 8).foldr (fun i acc => acc + data.getD (1 + i) 0 * 256 ^ i) 0

def validateCreateAtaInstruction (instruction : TransactionInstruction) : CreateAtaResult :=
  if instruction.programId ≠ ASSOCIATED_TOKEN_PROGRAM_ID then
    ⟨false, some "First instruction must be from Associated Token Program", none⟩
  else if ¬(instruction.data.length = 1 ∧
      instruction.data.getD 0 0 = CREATE_IDEMPOTENT_ATA_DISCRIMINATOR) then
    ⟨false, some "First instruction must be create idempotent ATA", none⟩
  else if instruction.keys.length < 6 then
    ⟨false, some "Invalid create ATA instruction accounts", none⟩
  else
    let targetAta := (instruction.keys.getD 1 defaultMeta).pubkey
    let mint := (instruction.keys.getD 3 defaultMeta).pubkey
    if mint ≠ USDC_MINT then
      ⟨false, some "ATA must be for USDC token", none⟩
    else
      ⟨true, none, some targetAta⟩

def validateTransferInstruction (instruction : TransactionInstruction)
    (recipient : Pubkey) : ValidationResult :=
  if instruction.programId ≠ TOKEN_PROGRAM_ID then
    ⟨false, some "Second instruction must be from Token Program", none, none, none⟩
  else if instruction.data.length < 9 ∨
      instruction.data.getD 0 0 ≠ TRANSFER_CHECKED_DISCRIMINATOR then
    ⟨false, some "Second instruction must be TransferChecked", none, none, none⟩
  else
    let amount := readBigUInt64LE1 instruction.data
    if instruction.keys.length < 4 then
      ⟨false, some "Invalid TransferChecked instruction accounts", none, none, none⟩
    else
      let sourceAta := (instruction.keys.getD 0 defaultMeta).pubkey
      let mint := (instruction.keys.getD 1 defaultMeta).pubkey
      let destAta := (instruction.keys.getD 2 defaultMeta).pubkey
      let sourceOwner := (instruction.keys.getD 3 defaultMeta).pubkey
      if mint ≠ USDC_MINT then
        ⟨false, some "Transfer must be USDC token", none, none, none⟩
      else if sourceAta ≠ getAssociatedTokenAddressSync USDC_MINT sourceOwner then
        ⟨false, some "Source ATA does not match senders USDC ATA", none, none, none⟩
      else if destAta ≠ getAssociatedTokenAddressSync USDC_MINT recipient then
        ⟨false, some "Destination ATA does not match recipients USDC ATA", none, none, none⟩
      else
        ⟨true, none, some sourceOwner, some recipient, some amount⟩

/-- `getRecipientFromCreateAta`: account 2 (the wallet owner) of the create
ATA instruction.  The default is unreachable at its call site, which is
guarded by `validateCreateAtaInstruction` (keys.length ≥ 6). -/
def getRecipientFromCreateAta (instruction : TransactionInstruction) : Pubkey :=
  (instruction.keys.getD 2 defaultMeta).pubkey

/-- The body of `validateTransaction` once the two instructions are in
hand: the fee-payer, instruction, ATA-target, registry, compliance and
signature checks, in source order. -/
def validateTransactionChecks (relayerPk : Pubkey) (db : Db)
    (transaction : Tx) (ix0 ix1 : TransactionInstruction) : ValidationResult :=
  if transaction.feePayer ≠ some relayerPk then
    ⟨false, some "Fee payer must be the relayer", none, none, none⟩
  else
    let createAtaResult := validateCreateAtaInstruction ix0
    if createAtaResult.valid = false then
      ⟨false, createAtaResult.error, none, none, none⟩
    else
      let recipient := getRecipientFromCreateAta ix0
      let transferResult := validateTransferInstruction ix1 recipient
      if transferResult.valid = false then
        transferResult
      else
        let senderPk := transferResult.sender.getD (.raw "")
        let recipientPk := transferResult.recipient.getD (.raw "")
        let recipientAta := getAssociatedTokenAddressSync USDC_MINT recipientPk
        if createAtaResult.targetAta ≠ some recipientAta then
          ⟨false, some "ATA creation must target recipients USDC ATA", none, none, none⟩
        else if db.isUserRegistered senderPk = false then
          ⟨false, some "Sender is not a registered user", none, none, none⟩
        else if db.isUserRegistered recipientPk = false then
          ⟨false, some "Recipient is not a registered user", none, none, none⟩
        else if db.isCompliant senderPk = false then
          ⟨false, some "Sender is not compliant", none, none, none⟩
        else if db.isCompliant recipientPk = false then
          ⟨false, some "Recipient is not compliant", none, none, none⟩
        else if ((transaction.signatures.find? fun s => s.publicKey = senderPk).bind
            (·.signature)).isNone then
          ⟨false, some "Sender signature is missing", none, none, none⟩
        else if ((transaction.signatures.find? fun s => s.publicKey = relayerPk).bind
            (·.signature)).isSome then
          ⟨false, some "Relayer signature should not be present yet", none, none, none⟩
        else
          match transaction.signatures.find?
              (fun s => ¬(s.publicKey = relayerPk ∨ s.publicKey = senderPk)) with
          | some s =>
            ⟨false, some ("Unexpected signer: " ++ s.publicKey.toBase58), none, none, none⟩
          | none =>
            ⟨true, none, transferResult.sender, transferResult.recipient,
              transferResult.amount⟩

/-- `validateTransaction`, matching relayer.ts check for check.  Key
identities are compared as `Pubkey` values; the source compares their base58
encodings, which is equivalent since the encoding is injective. -/
def validateTransaction (relayerPk : Pubkey) (db : Db) (transaction : Tx) :
    ValidationResult :=
  match transaction.instructions with
  | [ix0, ix1] => validateTransactionChecks relayerPk db transaction ix0 ix1
  | ixs =>
    ⟨false, some ("Expected 2 instructions, got " ++ toString ixs.length), none, none, none⟩

/-- `validateTransaction` with the two compliance branches deleted: the
reference point for stating that those branches are unreachable (the demo's
compliance predicate is constantly true). -/
def validateTransactionComplianceFree (relayerPk : Pubkey) (db : Db)
    (transaction : Tx) : ValidationResult :=
  match transaction.instructions with
  | [ix0, ix1] =>
    if transaction.feePayer ≠ some relayerPk then
      ⟨false, some "Fee payer must be the relayer", none, none, none⟩
    else
      let createAtaResult := validateCreateAtaInstruction ix0
      if createAtaResult.valid = false then
        ⟨false, createAtaResult.error, none, none, none⟩
      else
        let recipient := getRecipientFromCreateAta ix0
        let transferResult := validateTransferInstruction ix1 recipient
        if transferResult.valid = false then
          transferResult
        else
          let senderPk := transferResult.sender.getD (.raw "")
          let recipientPk := transferResult.recipient.getD (.raw "")
          let recipientAta := getAssociatedTokenAddressSync USDC_MINT recipientPk
          if createAtaResult.targetAta ≠ some recipientAta then
            ⟨false, some "ATA creation must target recipients USDC ATA", none, none, none⟩
          else if db.isUserRegistered senderPk = false then
            ⟨false, some "Sender is not a registered user", none, none, none⟩
          else if db.isUserRegistered recipientPk = false then
            ⟨false, some "Recipient is not a registered user", none, none, none⟩
          else if ((transaction.signatures.find? fun s => s.publicKey = senderPk).bind
              (·.signature)).isNone then
            ⟨false, some "Sender signature is missing", none, none, none⟩
          else if ((transaction.signatures.find? fun s => s.publicKey = relayerPk).bind
              (·.signature)).isSome then
            ⟨false, some "Relayer signature should not be present yet", none, none, none⟩
          else
            match transaction.signatures.find?
                (fun s => ¬(s.publicKey = relayerPk ∨ s.publicKey = senderPk)) with
            | some s =>
              ⟨false, some ("Unexpected signer: " ++ s.publicKey.toBase58), none, none, none⟩
            | none =>
              ⟨true, none, transferResult.sender, transferResult.recipient,
                transferResult.amount⟩
  | ixs =>
    ⟨false, some ("Expected 2 instructions, got " ++ toString ixs.length), none, none, none⟩

structure RelayResult where
  success : Bool
  transactionId : Option String
  error : Option String
deriving DecidableEq, Repr

/-- `relayTransaction`.  The input is the result of decoding the submitted
base64 bytes (`none` models a `Transaction.from` throw, which the outer
catch turns into a failure result).  Base64 re-encoding of the sender
signature bytes is injective and modelled as the identity. -/
def relayTransaction (relayerPk : Pubkey) (decoded : Option Tx)
    (lastValidBlockHeight : Nat) (db : Db) (now : Nat) : RelayResult × Db :=
  match decoded with
  | none => (⟨false, none, some "Unknown error"⟩, db)
  | some transaction =>
    let validationResult := validateTransaction relayerPk db transaction
    if validationResult.valid = false then
      (⟨false, none, validationResult.error⟩, db)
    else
      let signed := transaction.addSignature relayerPk
      match signed.firstSignature with
      | none => (⟨false, none, some "Failed to get transaction signature"⟩, db)
      | some _ =>
        match (signed.signatures.get? 1).bind (·.signature) with
        | none => (⟨false, none, some "Sender signature not found"⟩, db)
        | some senderSignature =>
          let transactionId := senderSignature
          match db.getTransaction transactionId with
          | some _ => (⟨true, some transactionId, none⟩, db)
          | none =>
            let record : TransactionRecord :=
              { signature := transactionId
                serializedTransaction := signed
                sender := validationResult.sender.getD (.raw "")
                recipient := validationResult.recipient.getD (.raw "")
                amount := validationResult.amount.getD 0
                lastValidBlockHeight := lastValidBlockHeight
                status := CREATED
                createdAt := now
                updatedAt := now }
            (⟨true, some transactionId, none⟩, db.addTransaction record)

/-! ## The reconciliation loop (workflow.ts)

Each RPC call made while processing one record is modelled by a response
field; `Except Unit _` distinguishes a thrown/transient error (`.error`)
from a normal answer (`.ok`).  An exception thrown by a call without a
surrounding try/catch propagates to `processTransactions`, whose per-record
catch only logs it — observably, the record is left unchanged. -/

structure SigStatus where
  confirmationStatus : Option String
deriving DecidableEq, Repr

/-- The ledger's answers to the calls one `processTransaction` run makes. -/
structure LedgerView where
  status : Except Unit (Option SigStatus)
  blockhashValid : Except Unit Bool
  sendResult : Except Unit Unit
  epochBlockHeight : Except Unit (Option Nat)
  historyStatus : Except Unit (Option SigStatus)
  fullTx : Except Unit (Option Unit)

/-- The settlement notification logged by `sendReceipt`, tagged with the
signature of the record whose processing emitted it.  Its `status` field is
`FINALIZED`: `db.updateTransactionStatus` mutates the very record object
`sendReceipt` then reads. -/
structure Receipt where
  sig : String
  sender : Pubkey
  recipient : Pubkey
  amount : Nat
  status : TransactionStatus
deriving DecidableEq, Repr

def handleExistingStatus (db : Db) (tx : TransactionRecord)
    (confirmationStatus : Option String) (now : Nat) : Db × List Receipt :=
  match confirmationStatus with
  | none => (db, [])
  | some s =>
    if s = "processed" then
      if tx.status ≠ PROCESSED then
        (db.updateTransactionStatus tx.signature PROCESSED now, [])
      else (db, [])
    else if s = "confirmed" then
      if tx.status ≠ CONFIRMED ∧ tx.status ≠ FINALIZED then
        (db.updateTransactionStatus tx.signature CONFIRMED now, [])
      else (db, [])
    else if s = "finalized" then
      if tx.status ≠ FINALIZED then
        (db.updateTransactionStatus tx.signature FINALIZED now,
          [⟨tx.signature, tx.sender, tx.recipient, tx.amount, FINALIZED⟩])
      else (db, [])
    else (db, [])

def handleExpiredBlockhash (db : Db) (tx : TransactionRecord) (L : LedgerView)
    (now : Nat) : Db × List Receipt :=
  match L.epochBlockHeight with
  | .error _ => (db, [])
  | .ok bh =>
    let currentBlockHeight := bh.getD 0
    if currentBlockHeight < tx.lastValidBlockHeight then
      (db, [])
    else
      match L.historyStatus with
      | .error _ => (db, [])
      | .ok (some _) => (db, [])
      | .ok none =>
        match L.fullTx with
        | .ok (some _) => (db, [])
        | .ok none => (db.updateTransactionStatus tx.signature FAILED now, [])
        | .error _ => (db.updateTransactionStatus tx.signature FAILED now, [])

def handleNullStatus (db : Db) (tx : TransactionRecord) (L : LedgerView)
    (now : Nat) : Db × List Receipt :=
  match L.blockhashValid with
  | .error _ => (db, [])
  | .ok true =>
    match L.sendResult with
    | .error _ => (db, [])
    | .ok _ =>
      if tx.status = CREATED then
        (db.updateTransactionStatus tx.signature SUBMITTED now, [])
      else (db, [])
  | .ok false => handleExpiredBlockhash db tx L now

/-- `processTransaction`: one record, one cycle. -/
def processRecord (db : Db) (tx : TransactionRecord) (L : LedgerView)
    (now : Nat) : Db × List Receipt :=
  match tx.serializedTransaction.firstSignature with
  | none => (db, [])
  | some _ =>
    match L.status with
    | .error _ => (db, [])
    | .ok none => handleNullStatus db tx L now
    | .ok (some st) => handleExistingStatus db tx st.confirmationStatus now

/-- One iteration of the cycle's for-loop: process one snapshot record
against the threaded database, appending its receipts. -/
def cycleStep (oracle : String → LedgerView) (now : Nat)
    (acc : Db × List Receipt) (tx : TransactionRecord) : Db × List Receipt :=
  let r := processRecord acc.1 tx (oracle tx.signature) now
  (r.1, acc.2 ++ r.2)

/-- `processTransactions`: one full cycle over the snapshot of non-terminal
records, threading the database and collecting receipts. -/
def processTransactions (db : Db) (oracle : String → LedgerView) (now : Nat) :
    Db × List Receipt :=
  db.getNonTerminalTransactions.foldl (cycleStep oracle now) (db, [])

/-- A run of successive reconciliation cycles, one oracle per cycle. -/
def runCycles (db : Db) (oracles : List (String → LedgerView)) (now : Nat) :
    Db × List Receipt :=
  match oracles with
  | [] => (db, [])
  | o :: rest =>
    let r := processTransactions db o now
    let r2 := runCycles r.1 rest (now + 1)
    (r2.1, r.2 ++ r2.2)

/-- Well-formedness of the transaction map: keys are distinct and each
record is stored under its own signature — invariants `Map` semantics and
`addTransaction` maintain. -/
def Db.WF (db : Db) : Prop :=
  (db.transactions.map Prod.fst).Nodup ∧ ∀ p ∈ db.transactions, p.2.signature = p.1

/-! ## Characterization helpers

`processRecord` threads the database but consults it only through the final
`updateTransactionStatus` call; its control flow depends on the snapshot
record and the ledger's answers alone.  `recordDecision` and
`recordReceipts` compute that pure decision; the characterization theorems
below prove them equal to `processRecord`. -/

def recordDecision (tx : TransactionRecord) (L : LedgerView) :
    Option TransactionStatus :=
  match tx.serializedTransaction.firstSignature with
  | none => none
  | some _ =>
    match L.status with
    | .error _ => none
    | .ok (some st) =>
      match st.confirmationStatus with
      | none => none
      | some s =>
        if s = "processed" then
          if tx.status ≠ PROCESSED then some PROCESSED else none
        else if s = "confirmed" then
          if tx.status ≠ CONFIRMED ∧ tx.status ≠ FINALIZED then some CONFIRMED else none
        else if s = "finalized" then
          if tx.status ≠ FINALIZED then some FINALIZED else none
        else none
    | .ok none =>
      match L.blockhashValid with
      | .error _ => none
      | .ok true =>
        match L.sendResult with
        | .error _ => none
        | .ok _ => if tx.status = CREATED then some SUBMITTED else none
      | .ok false =>
        match L.epochBlockHeight with
        | .error _ => none
        | .ok bh =>
          if bh.getD 0 < tx.lastValidBlockHeight then none
          else
            match L.historyStatus with
            | .error _ => none
            | .ok (some _) => none
            | .ok none =>
              match L.fullTx with
              | .ok (some _) => none
              | .ok none => some FAILED
              | .error _ => some FAILED

def recordReceipts (tx : TransactionRecord) (L : LedgerView) : List Receipt :=
  if recordDecision tx L = some FINALIZED then
    [⟨tx.signature, tx.sender, tx.recipient, tx.amount, FINALIZED⟩]
  else []

def applyDecision (oracle : String → LedgerView) (now : Nat) (db : Db)
    (tx : TransactionRecord) : Db :=
  match recordDecision tx (oracle tx.signature) with
  | none => db
  | some st => db.updateTransactionStatus tx.signature st now

/-! ## Concrete fixtures

A fully valid candidate transaction, used to exercise the definitions at
concrete inputs. -/

def relayer0 : Pubkey := .raw "Re1ayerPubkey11111111111111111111111111111"

def sender0 : Pubkey := .raw "SenderPubkey111111111111111111111111111111"

def recipient0 : Pubkey := .raw "RecipientPubkey1111111111111111111111111111"

def senderAta0 : Pubkey := .ata USDC_MINT sender0

def recipientAta0 : Pubkey := .ata USDC_MINT recipient0

/-- Instruction 1: idempotent creation of the recipient's USDC ATA. -/
def createAtaIx0 : TransactionInstruction :=
  { programId := ASSOCIATED_TOKEN_PROGRAM_ID
    keys :=
      [ ⟨relayer0, true, true⟩
      , ⟨recipientAta0, false, true⟩
      , ⟨recipient0, false, false⟩
      , ⟨USDC_MINT, false, false⟩
      , ⟨.raw "11111111111111111111111111111111", false, false⟩
      , ⟨TOKEN_PROGRAM_ID, false, false⟩ ]
    data := [1] }

/-- Instruction 2: `TransferChecked` of 1000000 (= 1 USDC) from the sender's
ATA to the recipient's ATA. -/
def transferIx0 : TransactionInstruction :=
  { programId := TOKEN_PROGRAM_ID
    keys :=
      [ ⟨senderAta0, false, true⟩
      , ⟨USDC_MINT, false, false⟩
      , ⟨recipientAta0, false, true⟩
      , ⟨sender0, true, false⟩ ]
    data := [12, 64, 66, 15, 0, 0, 0, 0, 0] }

/-- A well-formed candidate transaction: fee payer is the relayer, the
sender has signed, the relayer has not yet. -/
def tx0 : Tx :=
  { feePayer := some relayer0
    recentBlockhash := some "B1ockhash111111111111111111111111"
    instructions := [createAtaIx0, transferIx0]
    signatures := [⟨relayer0, none⟩, ⟨sender0, some "SenderSig0"⟩] }

/-- A registry with the fixture sender and recipient registered and an empty
transaction store. -/
def db0 : Db :=
  { transactions := []
    users :=
      [ (sender0, ⟨sender0, "Sender"⟩)
      , (recipient0, ⟨recipient0, "Recipient"⟩) ] }

/-- The record `relayTransaction` stores when admitting `tx0` from `db0` at
time 7 with `lastValidBlockHeight = 500`. -/
def record0 : TransactionRecord :=
  { signature := "SenderSig0"
    serializedTransaction := tx0.addSignature relayer0
    sender := sender0
    recipient := recipient0
    amount := 1000000
    lastValidBlockHeight := 500
    status := CREATED
    createdAt := 7
    updatedAt := 7 }

/-- A store state holding the admitted record while the user registry is
empty: used to observe that re-submission runs full validation before the
duplicate check. -/
def dbRecordOnly : Db :=
  { transactions := [("SenderSig0", record0)], users := [] }

/-- The admitted record, advanced to `CONFIRMED` by an earlier cycle. -/
def recordConfirmed : TransactionRecord :=
  { record0 with status := CONFIRMED, updatedAt := 9 }

def dbConfirmed : Db :=
  { transactions := [("SenderSig0", recordConfirmed)], users := db0.users }

/-- A cycle in which the ledger answers every status query with
`confirmationStatus = "processed"`. -/
def viewProcessed : LedgerView :=
  { status := .ok (some ⟨some "processed"⟩)
    blockhashValid := .ok true
    sendResult := .ok ()
    epochBlockHeight := .ok (some 0)
    historyStatus := .ok none
    fullTx := .ok none }

/-- The admitted record, in `SUBMITTED`. -/
def recordSubmitted : TransactionRecord :=
  { record0 with status := SUBMITTED, updatedAt := 8 }

def dbSubmitted : Db :=
  { transactions := [("SenderSig0", recordSubmitted)], users := db0.users }

/-- A cycle answer set for a record whose blockhash has expired and whose
`lastValidBlockHeight` has been passed by the finalized chain: the signature
status and history search come back empty, and the direct `getTransaction`
lookup THROWS (models an RPC failure, not an empty answer). -/
def viewLookupThrows : LedgerView :=
  { status := .ok none
    blockhashValid := .ok false
    sendResult := .ok ()
    epochBlockHeight := .ok (some 600)
    historyStatus := .ok none
    fullTx := .error () }

/-- A cycle in which the ledger answers every status query with
`confirmationStatus = "finalized"`. -/
def viewFinalized : LedgerView :=
  { status := .ok (some ⟨some "finalized"⟩)
    blockhashValid := .ok true
    sendResult := .ok ()
    epochBlockHeight := .ok (some 0)
    historyStatus := .ok none
    fullTx := .ok none }

/-- `tx0` with a third (individually well-formed) instruction appended. -/
def tx3 : Tx :=
  { tx0 with instructions := [createAtaIx0, transferIx0, transferIx0] }

def badMint0 : Pubkey := .raw "BadMintPubkey11111111111111111111111111111"

/-- `transferIx0` with the mint account replaced by a non-USDC mint. -/
def transferIxBadMint : TransactionInstruction :=
  { transferIx0 with keys :=
      [ ⟨senderAta0, false, true⟩
      , ⟨badMint0, false, false⟩
      , ⟨recipientAta0, false, true⟩
      , ⟨sender0, true, false⟩ ] }

def txBadMint : Tx :=
  { tx0 with instructions := [createAtaIx0, transferIxBadMint] }

/-- A cycle answer set for a record whose blockhash has expired while the
finalized chain is still below its `lastValidBlockHeight`. -/
def viewWaiting : LedgerView :=
  { status := .ok none
    blockhashValid := .ok false
    sendResult := .ok ()
    epochBlockHeight := .ok (some 400)
    historyStatus := .ok none
    fullTx := .ok none }

/-! # Theorems -/

/-- Claim C8: a candidate transaction whose instruction count is not exactly
two is rejected with the structural reason naming the count, regardless of
the content of the individual instructions. -/
theorem c8_wrong_instruction_count_rejected (relayerPk : Pubkey) (db : Db)
    (tx : Tx) (h : tx.instructions.length ≠ 2) :
    (validateTransaction relayerPk db tx).valid = false ∧
    (validateTransaction relayerPk db tx).error =
      some ("Expected 2 instructions, got " ++ toString tx.instructions.length) := by
  rcases tx with ⟨fp, rb, ixs, sigs⟩
  rcases ixs with _ | ⟨a, _ | ⟨b, _ | ⟨c, t⟩⟩⟩
  · exact ⟨rfl, rfl⟩
  · exact ⟨rfl, rfl⟩
  · exact absurd rfl h
  · exact ⟨rfl, rfl⟩

/-- Witness for C8: a three-instruction transaction whose first two
instructions are the valid ones of `tx0` is rejected. -/
theorem c8_wrong_instruction_count_rejected_witness :
    tx3.instructions.length ≠ 2 ∧
    ((validateTransaction relayer0 db0 tx3).valid = false ∧
      (validateTransaction relayer0 db0 tx3).error =
        some ("Expected 2 instructions, got " ++ toString tx3.instructions.length)) :=
  ⟨by decide, c8_wrong_instruction_count_rejected relayer0 db0 tx3 (by decide)⟩

/-- Claim C10: the compliance predicate returns true for every identity, so
the two compliance-rejection branches of the admission gate are dead: the
gate behaves exactly like its copy with those branches deleted, and no
input is ever refused on compliance grounds. -/
theorem c10_compliance_branches_unreachable :
    (∀ (db : Db) (pk : Pubkey), db.isCompliant pk = true) ∧
    ∀ (relayerPk : Pubkey) (db : Db) (tx : Tx),
      validateTransaction relayerPk db tx =
        validateTransactionComplianceFree relayerPk db tx := by
  refine ⟨fun _ _ => rfl, fun relayerPk db tx => ?_⟩
  rcases tx with ⟨fp, rb, ixs, sigs⟩
  rcases ixs with _ | ⟨a, _ | ⟨b, _ | ⟨c, t⟩⟩⟩ <;>
    simp [validateTransaction, validateTransactionChecks,
      validateTransactionComplianceFree, Db.isCompliant]

/-- Every admission call either reports success or leaves the store
untouched. -/
theorem relayTransaction_success_or_unchanged (relayerPk : Pubkey)
    (decoded : Option Tx) (lvbh : Nat) (db : Db) (now : Nat) :
    (relayTransaction relayerPk decoded lvbh db now).1.success = true ∨
    (relayTransaction relayerPk decoded lvbh db now).2 = db := by
  rcases decoded with _ | tx
  · exact Or.inr rfl
  · simp only [relayTransaction]
    by_cases hv : (validateTransaction relayerPk db tx).valid = false
    · rw [if_pos hv]
      exact Or.inr rfl
    · rw [if_neg hv]
      rcases h1 : (tx.addSignature relayerPk).firstSignature with _ | s1
      · exact Or.inr rfl
      · rcases h2 : ((tx.addSignature relayerPk).signatures.get? 1).bind
            (fun x => x.signature) with _ | s2
        · exact Or.inr rfl
        · dsimp only
          rcases h3 : db.getTransaction s2 with _ | r
          · exact Or.inl rfl
          · exact Or.inl rfl

/-- Claim C7: every rejected admission (undecodable bytes or any validation
failure) leaves the record store exactly as it was. -/
theorem c7_rejection_leaves_store_unchanged (relayerPk : Pubkey)
    (decoded : Option Tx) (lvbh : Nat) (db : Db) (now : Nat)
    (h : (relayTransaction relayerPk decoded lvbh db now).1.success = false) :
    (relayTransaction relayerPk decoded lvbh db now).2 = db := by
  rcases relayTransaction_success_or_unchanged relayerPk decoded lvbh db now with hs | hdb
  · rw [hs] at h
    cases h
  · exact hdb

/-- Characterization: a create-ATA instruction is either rejected, or it
names the USDC mint in account slot 3 and targets the account in slot 1. -/
theorem validateCreateAtaInstruction_cases (i : TransactionInstruction) :
    (validateCreateAtaInstruction i).valid = false ∨
    ((i.keys.getD 3 defaultMeta).pubkey = USDC_MINT ∧
      validateCreateAtaInstruction i =
        ⟨true, none, some ((i.keys.getD 1 defaultMeta).pubkey)⟩) := by
  simp only [validateCreateAtaInstruction]
  repeat' split
  all_goals
    first
    | exact Or.inl rfl
    | (rename_i hmint; exact Or.inr ⟨not_ne_iff.mp hmint, rfl⟩)

/-- Characterization: a transfer instruction is either rejected, or it is a
USDC `TransferChecked` whose reported sender is the owner account (slot 3)
and whose amount is the little-endian payload. -/
theorem validateTransferInstruction_cases (i : TransactionInstruction)
    (r : Pubkey) :
    (validateTransferInstruction i r).valid = false ∨
    ((i.keys.getD 1 defaultMeta).pubkey = USDC_MINT ∧
      validateTransferInstruction i r =
        ⟨true, none, some ((i.keys.getD 3 defaultMeta).pubkey), some r,
          some (readBigUInt64LE1 i.data)⟩) := by
  simp only [validateTransferInstruction]
  repeat' split
  all_goals
    first
    | exact Or.inl rfl
    | (rename_i hmint _ _; exact Or.inr ⟨not_ne_iff.mp hmint, rfl⟩)

set_option maxHeartbeats 1600000 in
/-- Characterization of the whole admission check on a two-instruction
transaction: either it rejects, or both instruction validators accepted and
no signature entry lies outside the relayer/sender pair. -/
theorem validateTransaction_cases (relayerPk : Pubkey) (db : Db) (tx : Tx)
    (ix0 ix1 : TransactionInstruction) (hix : tx.instructions = [ix0, ix1]) :
    (validateTransaction relayerPk db tx).valid = false ∨
    ((validateCreateAtaInstruction ix0).valid = true ∧
     (validateTransferInstruction ix1 (getRecipientFromCreateAta ix0)).valid = true ∧
     validateTransaction relayerPk db tx =
       ⟨true, none,
         (validateTransferInstruction ix1 (getRecipientFromCreateAta ix0)).sender,
         (validateTransferInstruction ix1 (getRecipientFromCreateAta ix0)).recipient,
         (validateTransferInstruction ix1 (getRecipientFromCreateAta ix0)).amount⟩ ∧
     tx.signatures.find?
       (fun s => ¬(s.publicKey = relayerPk ∨
         s.publicKey = ((validateTransferInstruction ix1
           (getRecipientFromCreateAta ix0)).sender.getD (.raw "")))) = none) := by
  have hred : validateTransaction relayerPk db tx =
      validateTransactionChecks relayerPk db tx ix0 ix1 := by
    unfold validateTransaction
    rw [hix]
  rw [hred]
  unfold validateTransactionChecks
  dsimp only
  by_cases h1 : tx.feePayer ≠ some relayerPk
  · rw [if_pos h1]
    exact Or.inl rfl
  · rw [if_neg h1]
    by_cases h2 : (validateCreateAtaInstruction ix0).valid = false
    · rw [if_pos h2]
      exact Or.inl rfl
    · rw [if_neg h2]
      by_cases h3 : (validateTransferInstruction ix1 (getRecipientFromCreateAta ix0)).valid = false
      · rw [if_pos h3]
        exact Or.inl h3
      · rw [if_neg h3]
        by_cases h4 : (validateCreateAtaInstruction ix0).targetAta ≠
            some (getAssociatedTokenAddressSync USDC_MINT
              ((validateTransferInstruction ix1 (getRecipientFromCreateAta ix0)).recipient.getD (Pubkey.raw "")))
        · rw [if_pos h4]
          exact Or.inl rfl
        · rw [if_neg h4]
          by_cases h5 : db.isUserRegistered
              ((validateTransferInstruction ix1 (getRecipientFromCreateAta ix0)).sender.getD (Pubkey.raw "")) = false
          · rw [if_pos h5]
            exact Or.inl rfl
          · rw [if_neg h5]
            by_cases h6 : db.isUserRegistered
                ((validateTransferInstruction ix1 (getRecipientFromCreateAta ix0)).recipient.getD (Pubkey.raw "")) = false
            · rw [if_pos h6]
              exact Or.inl rfl
            · rw [if_neg h6]
              by_cases h7 : db.isCompliant
                  ((validateTransferInstruction ix1 (getRecipientFromCreateAta ix0)).sender.getD (Pubkey.raw "")) = false
              · rw [if_pos h7]
                exact Or.inl rfl
              · rw [if_neg h7]
                by_cases h8 : db.isCompliant
                    ((validateTransferInstruction ix1 (getRecipientFromCreateAta ix0)).recipient.getD (Pubkey.raw "")) = false
                · rw [if_pos h8]
                  exact Or.inl rfl
                · rw [if_neg h8]
                  by_cases h9 : ((tx.signatures.find? fun s => s.publicKey =
                      (validateTransferInstruction ix1 (getRecipientFromCreateAta ix0)).sender.getD (Pubkey.raw "")).bind
                      (fun x => x.signature)).isNone = true
                  · rw [if_pos h9]
                    exact Or.inl rfl
                  · rw [if_neg h9]
                    by_cases h10 : ((tx.signatures.find? fun s => s.publicKey = relayerPk).bind
                        (fun x => x.signature)).isSome = true
                    · rw [if_pos h10]
                      exact Or.inl rfl
                    · rw [if_neg h10]
                      rcases hf : tx.signatures.find?
                          (fun s => ¬(s.publicKey = relayerPk ∨
                            s.publicKey = ((validateTransferInstruction ix1
                              (getRecipientFromCreateAta ix0)).sender.getD (Pubkey.raw "")))) with _ | s
                      · rw [hf]
                        refine Or.inr ⟨?_, ?_, rfl, rfl⟩
                        · simpa using h2
                        · simpa using h3
                      · rw [hf]
                        exact Or.inl rfl

theorem c7_rejection_leaves_store_unchanged_witness :
    (relayTransaction relayer0 (some tx3) 500 db0 7).1.success = false ∧
    (relayTransaction relayer0 (some tx3) 500 db0 7).2 = db0 :=
  ⟨by decide, c7_rejection_leaves_store_unchanged relayer0 (some tx3) 500 db0 7 (by decide)⟩

/-- Claim C9: a two-instruction candidate whose transfer instruction names a
mint other than USDC, or whose account-creation instruction targets an
account for a different mint, is rejected by the admission gate, whatever
its other fields hold. -/
theorem c9_wrong_mint_rejected (relayerPk : Pubkey) (db : Db) (tx : Tx)
    (ix0 ix1 : TransactionInstruction) (hix : tx.instructions = [ix0, ix1])
    (h : (ix0.keys.getD 3 defaultMeta).pubkey ≠ USDC_MINT ∨
      (ix1.keys.getD 1 defaultMeta).pubkey ≠ USDC_MINT) :
    (validateTransaction relayerPk db tx).valid = false := by
  rcases validateTransaction_cases relayerPk db tx ix0 ix1 hix with hv | ⟨hata, htr, _, _⟩
  · exact hv
  · exfalso
    rcases h with h | h
    · rcases validateCreateAtaInstruction_cases ix0 with hf | ⟨hm, _⟩
      · rw [hata] at hf
        cases hf
      · exact h hm
    · rcases validateTransferInstruction_cases ix1 (getRecipientFromCreateAta ix0) with
        hf | ⟨hm, _⟩
      · rw [htr] at hf
        cases hf
      · exact h hm

/-- Witness for C9: substituting a non-USDC mint into the otherwise fully
valid `tx0` makes admission fail. -/
theorem c9_wrong_mint_rejected_witness :
    (txBadMint.instructions = [createAtaIx0, transferIxBadMint] ∧
      (transferIxBadMint.keys.getD 1 defaultMeta).pubkey ≠ USDC_MINT) ∧
    (validateTransaction relayer0 db0 txBadMint).valid = false :=
  ⟨⟨rfl, by decide⟩,
    c9_wrong_mint_rejected relayer0 db0 txBadMint createAtaIx0 transferIxBadMint rfl
      (Or.inr (by decide))⟩

/-- Counterexample to claim C3 as stated: `tx0` is admitted by the gate
(validation succeeds, the relayer co-signs and stores it) although its
transfer instruction carries a writable account entry — the recipient's
associated token account — that is neither the relayer nor the sender.
Writable non-signer accounts are simply never checked. -/
theorem c3_counterexample :
    (validateTransaction relayer0 db0 tx0).valid = true ∧
    (relayTransaction relayer0 (some tx0) 500 db0 7).1.success = true ∧
    (validateTransaction relayer0 db0 tx0).sender = some sender0 ∧
    (⟨recipientAta0, false, true⟩ : AccountMeta) ∈ transferIx0.keys ∧
    transferIx0 ∈ tx0.instructions ∧
    recipientAta0 ≠ relayer0 ∧ recipientAta0 ≠ sender0 := by
  exact ⟨by decide, by decide, by decide, by decide, by decide, by decide, by decide⟩

/-- Claim C3 (amended): the gate rejects a candidate whenever a *signer*
entry lies outside the expected set consisting of the relayer and the
sender; writable non-signer account entries are not constrained by this
check.  Stated as: successful validation forces every signature-list entry
to be the relayer or the transfer's source owner. -/
theorem c3_amended_signer_entries_restricted (relayerPk : Pubkey) (db : Db)
    (tx : Tx) (ix0 ix1 : TransactionInstruction)
    (hix : tx.instructions = [ix0, ix1])
    (h : (validateTransaction relayerPk db tx).valid = true) :
    ∀ s ∈ tx.signatures, s.publicKey = relayerPk ∨
      s.publicKey = (ix1.keys.getD 3 defaultMeta).pubkey := by
  rcases validateTransaction_cases relayerPk db tx ix0 ix1 hix with
    hv | ⟨hata, htr, heq, hfind⟩
  · rw [h] at hv
    cases hv
  · intro s hs
    have hsender : (validateTransferInstruction ix1 (getRecipientFromCreateAta ix0)).sender
        = some ((ix1.keys.getD 3 defaultMeta).pubkey) := by
      rcases validateTransferInstruction_cases ix1 (getRecipientFromCreateAta ix0) with
        hf | ⟨_, hres⟩
      · rw [htr] at hf
        cases hf
      · rw [hres]
    have hnot := List.find?_eq_none.mp hfind s hs
    exact or_iff_not_imp_left.mpr (by simpa [hsender] using hnot)

/-- Witness for the amended C3 at the fixture transaction. -/
theorem c3_amended_signer_entries_restricted_witness :
    (validateTransaction relayer0 db0 tx0).valid = true ∧
    ∀ s ∈ tx0.signatures, s.publicKey = relayer0 ∨
      s.publicKey = (transferIx0.keys.getD 3 defaultMeta).pubkey :=
  ⟨by decide,
    c3_amended_signer_entries_restricted relayer0 db0 tx0 createAtaIx0 transferIx0 rfl
      (by decide)⟩

/-- Claim C4: when the recency marker has expired but the ledger's finalized
height is still below the record's `lastValidBlockHeight`, the cycle leaves
the record (and the whole store) untouched — in particular it is not marked
FAILED. -/
theorem c4_conservative_guard (db : Db) (tx : TransactionRecord)
    (L : LedgerView) (now : Nat) (hterm : tx.status.isTerminal = false)
    (hstatus : L.status = .ok none) (hbh : L.blockhashValid = .ok false)
    (bh : Option Nat) (hepoch : L.epochBlockHeight = .ok bh)
    (hlt : bh.getD 0 < tx.lastValidBlockHeight) :
    processRecord db tx L now = (db, []) := by
  unfold processRecord
  cases h0 : tx.serializedTransaction.firstSignature
  · rfl
  · unfold handleNullStatus handleExpiredBlockhash
    rw [hstatus]
    dsimp only
    rw [hbh]
    dsimp only
    rw [hepoch]
    dsimp only
    rw [if_pos hlt]

/-- Witness for C4: a `SUBMITTED` record with `lastValidBlockHeight = 500`
is left untouched while the finalized height reads 400. -/
theorem c4_conservative_guard_witness :
    (recordSubmitted.status.isTerminal = false ∧
      viewWaiting.status = .ok none ∧
      viewWaiting.blockhashValid = .ok false ∧
      viewWaiting.epochBlockHeight = .ok (some 400) ∧
      (some 400 : Option Nat).getD 0 < recordSubmitted.lastValidBlockHeight) ∧
    processRecord dbSubmitted recordSubmitted viewWaiting 3 = (dbSubmitted, []) :=
  ⟨⟨by decide, rfl, rfl, rfl, by decide⟩,
    c4_conservative_guard dbSubmitted recordSubmitted viewWaiting 3 (by decide)
      rfl rfl (some 400) rfl (by decide)⟩

/-- Claim C1 (code bug): a record already in `CONFIRMED` is regressed to
`PROCESSED` when the ledger reports confirmation status "processed" — the
"processed" branch lacks the monotonicity guard the spec requires, so the
cycle moves the record to a strictly weaker state. -/
theorem c1_confirmed_regressed_to_processed :
    ((processTransactions dbConfirmed (fun _ => viewProcessed) 10).1.getTransaction
        "SenderSig0").map (·.status) = some PROCESSED ∧
    dbConfirmed.getTransaction "SenderSig0" = some recordConfirmed ∧
    recordConfirmed.status = CONFIRMED ∧
    stateRank PROCESSED < stateRank CONFIRMED := by
  exact ⟨rfl, rfl, rfl, by decide⟩

/-- Counterexample to claim C5 as stated: the record is marked FAILED even
though the third existence check (the direct `getTransaction` lookup) did
not return empty — it threw, and the catch block falls through to the
FAILED write. -/
theorem c5_counterexample :
    ((processRecord dbSubmitted recordSubmitted viewLookupThrows 11).1.getTransaction
        "SenderSig0").map (·.status) = some FAILED ∧
    viewLookupThrows.fullTx = .error () ∧
    ∀ u, viewLookupThrows.fullTx ≠ .ok (some u) := by
  refine ⟨rfl, rfl, ?_⟩
  intro u h
  cases h

/-! ## Store update lemmas -/

theorem updateAssoc_find (l : List (String × TransactionRecord)) (sig k : String)
    (st : TransactionStatus) (now : Nat) :
    (updateAssoc l sig st now).find? (fun p => p.1 = k) =
      if k = sig then
        (l.find? (fun p => p.1 = k)).map
          (fun p => (p.1, { p.2 with status := st, updatedAt := now }))
      else l.find? (fun p => p.1 = k) := by
  induction l with
  | nil => simp [updateAssoc]
  | cons hd tl ih =>
    rcases hd with ⟨a, r⟩
    by_cases hks : k = sig
    · subst hks
      by_cases hak : a = k
      · subst hak
        simp [updateAssoc, List.find?]
      · simp [updateAssoc, List.find?, hak, ih]
    · by_cases hak : a = k
      · subst hak
        simp [updateAssoc, List.find?, hks]
      · by_cases has : a = sig
        · subst has
          simp [updateAssoc, List.find?, hak, hks, ih]
        · simp [updateAssoc, List.find?, hak, has, hks, ih]

theorem getTransaction_update (db : Db) (sig k : String) (st : TransactionStatus)
    (now : Nat) :
    (db.updateTransactionStatus sig st now).getTransaction k =
      if k = sig then
        (db.getTransaction k).map (fun r => { r with status := st, updatedAt := now })
      else db.getTransaction k := by
  unfold Db.getTransaction Db.updateTransactionStatus
  rw [updateAssoc_find]
  split
  · cases hfind : db.transactions.find? (fun p => p.1 = k) <;> rfl
  · rfl

theorem updateAssoc_keys (l : List (String × TransactionRecord)) (sig : String)
    (st : TransactionStatus) (now : Nat) :
    (updateAssoc l sig st now).map Prod.fst = l.map Prod.fst := by
  induction l with
  | nil => rfl
  | cons hd tl ih =>
    rcases hd with ⟨a, r⟩
    by_cases has : a = sig <;> simp [updateAssoc, has, ih]

theorem updateAssoc_mem (l : List (String × TransactionRecord)) (sig : String)
    (st : TransactionStatus) (now : Nat) (p : String × TransactionRecord)
    (hp : p ∈ updateAssoc l sig st now) :
    ∃ q ∈ l, p.1 = q.1 ∧ p.2.signature = q.2.signature := by
  induction l generalizing p with
  | nil => cases hp
  | cons hd tl ih =>
    rcases hd with ⟨a, r⟩
    simp only [updateAssoc] at hp
    by_cases has : a = sig
    · rw [if_pos has] at hp
      rcases List.mem_cons.mp hp with hp1 | hp1
      · subst hp1
        exact ⟨(a, r), List.mem_cons_self _ _, rfl, rfl⟩
      · exact ⟨p, List.mem_cons_of_mem _ hp1, rfl, rfl⟩
    · rw [if_neg has] at hp
      rcases List.mem_cons.mp hp with hp1 | hp1
      · subst hp1
        exact ⟨(a, r), List.mem_cons_self _ _, rfl, rfl⟩
      · rcases ih p hp1 with ⟨q, hq, h1, h2⟩
        exact ⟨q, List.mem_cons_of_mem _ hq, h1, h2⟩

theorem WF_update (db : Db) (sig : String) (st : TransactionStatus) (now : Nat)
    (hwf : db.WF) : (db.updateTransactionStatus sig st now).WF := by
  rcases hwf with ⟨hnd, hsig⟩
  refine ⟨?_, ?_⟩
  · unfold Db.updateTransactionStatus
    rw [updateAssoc_keys]
    exact hnd
  · intro p hp
    rcases updateAssoc_mem db.transactions sig st now p hp with ⟨q, hq, h1, h2⟩
    rw [h2, h1]
    exact hsig q hq

/-! ## Characterization of one record's processing -/

theorem processRecord_char (db : Db) (tx : TransactionRecord) (L : LedgerView)
    (now : Nat) :
    processRecord db tx L now =
      ((match recordDecision tx L with
        | none => db
        | some st => db.updateTransactionStatus tx.signature st now),
       recordReceipts tx L) := by
  unfold processRecord recordReceipts recordDecision handleNullStatus
    handleExistingStatus handleExpiredBlockhash
  cases hfs : tx.serializedTransaction.firstSignature with
  | none => simp_all
  | some s0 =>
  cases hst : L.status with
  | error e => simp_all
  | ok o =>
  cases o with
  | some st =>
    cases hcs : st.confirmationStatus with
    | none => simp_all
    | some s =>
      by_cases h1 : s = "processed"
      · by_cases h2 : tx.status ≠ PROCESSED <;> simp_all
      · by_cases h3 : s = "confirmed"
        · by_cases h4 : tx.status ≠ CONFIRMED ∧ tx.status ≠ FINALIZED
          · simp only [if_pos h4]
            simp_all
          · simp only [if_neg h4]
            simp_all
        · by_cases h5 : s = "finalized"
          · by_cases h6 : tx.status ≠ FINALIZED <;> simp_all
          · simp_all
  | none =>
    cases hbv : L.blockhashValid with
    | error e => simp_all
    | ok b =>
    cases b with
    | true =>
      cases hsr : L.sendResult with
      | error e => simp_all
      | ok u =>
        by_cases hcr : tx.status = CREATED <;> simp_all
    | false =>
      cases hep : L.epochBlockHeight with
      | error e => simp_all
      | ok bh =>
        by_cases hlt : bh.getD 0 < tx.lastValidBlockHeight
        · simp_all
        · dsimp only
          simp only [if_neg hlt]
          cases hhs : L.historyStatus with
          | error e => simp_all
          | ok ho =>
          cases ho with
          | some h2 => simp_all
          | none =>
            cases hft : L.fullTx with
            | error e => simp_all
            | ok fo =>
              cases fo with
              | some u => simp_all
              | none => simp_all

theorem cycleStep_char (oracle : String → LedgerView) (now : Nat) (db : Db)
    (racc : List Receipt) (tx : TransactionRecord) :
    cycleStep oracle now (db, racc) tx =
      (applyDecision oracle now db tx,
        racc ++ recordReceipts tx (oracle tx.signature)) := by
  unfold cycleStep applyDecision
  rw [processRecord_char]

theorem recordReceipts_sig (tx : TransactionRecord) (L : LedgerView)
    (rc : Receipt) (hrc : rc ∈ recordReceipts tx L) : rc.sig = tx.signature := by
  unfold recordReceipts at hrc
  split at hrc
  · rw [List.mem_singleton.mp hrc]
  · cases hrc

theorem recordReceipts_filter_self (tx : TransactionRecord) (L : LedgerView)
    (s : String) (h : tx.signature = s) :
    (recordReceipts tx L).filter (fun rc => rc.sig = s) = recordReceipts tx L := by
  rw [List.filter_eq_self]
  intro rc hrc
  simp [recordReceipts_sig tx L rc hrc, h]

theorem recordReceipts_filter_ne (tx : TransactionRecord) (L : LedgerView)
    (s : String) (h : tx.signature ≠ s) :
    (recordReceipts tx L).filter (fun rc => rc.sig = s) = [] := by
  rw [List.filter_eq_nil]
  intro rc hrc
  simp [recordReceipts_sig tx L rc hrc, h]

/-! ## Characterization of a full cycle -/

theorem applyDecision_get_ne (oracle : String → LedgerView) (now : Nat)
    (db : Db) (t : TransactionRecord) (s : String) (h : t.signature ≠ s) :
    (applyDecision oracle now db t).getTransaction s = db.getTransaction s := by
  unfold applyDecision
  cases recordDecision t (oracle t.signature) with
  | none => rfl
  | some st =>
    rw [getTransaction_update, if_neg (fun hs => h hs.symm)]

theorem applyDecision_get_self (oracle : String → LedgerView) (now : Nat)
    (db : Db) (t : TransactionRecord) :
    (applyDecision oracle now db t).getTransaction t.signature =
      match recordDecision t (oracle t.signature) with
      | none => db.getTransaction t.signature
      | some st => (db.getTransaction t.signature).map
          (fun r => { r with status := st, updatedAt := now }) := by
  unfold applyDecision
  cases recordDecision t (oracle t.signature) with
  | none => rfl
  | some st =>
    rw [getTransaction_update, if_pos rfl]

theorem foldl_cycleStep_receipts (oracle : String → LedgerView) (now : Nat)
    (txs : List TransactionRecord) :
    ∀ (db : Db) (racc : List Receipt),
      (txs.foldl (cycleStep oracle now) (db, racc)).2 =
        racc ++ (txs.map (fun t => recordReceipts t (oracle t.signature))).flatten := by
  induction txs with
  | nil => intro db racc; simp
  | cons t ts ih =>
    intro db racc
    rw [List.foldl_cons, cycleStep_char, ih]
    simp

theorem foldl_cycleStep_get_notmem (oracle : String → LedgerView) (now : Nat)
    (s : String) (txs : List TransactionRecord) :
    ∀ (db : Db) (racc : List Receipt), (∀ t ∈ txs, t.signature ≠ s) →
      (txs.foldl (cycleStep oracle now) (db, racc)).1.getTransaction s =
        db.getTransaction s := by
  induction txs with
  | nil => intro db racc _; rfl
  | cons t ts ih =>
    intro db racc hne
    rw [List.foldl_cons, cycleStep_char]
    rw [ih _ _ (fun u hu => hne u (List.mem_cons_of_mem _ hu))]
    exact applyDecision_get_ne oracle now db t s (hne t (List.mem_cons_self _ _))

theorem foldl_cycleStep_get (oracle : String → LedgerView) (now : Nat)
    (s : String) (txs : List TransactionRecord) :
    ∀ (db : Db) (racc : List Receipt), (txs.map (·.signature)).Nodup →
      (txs.foldl (cycleStep oracle now) (db, racc)).1.getTransaction s =
        match txs.find? (fun t => t.signature = s) with
        | none => db.getTransaction s
        | some t =>
          match recordDecision t (oracle s) with
          | none => db.getTransaction s
          | some st => (db.getTransaction s).map
              (fun r => { r with status := st, updatedAt := now }) := by
  induction txs with
  | nil => intro db racc _; rfl
  | cons t ts ih =>
    intro db racc hnd
    rw [List.map_cons, List.nodup_cons] at hnd
    rw [List.foldl_cons, cycleStep_char]
    by_cases hts : t.signature = s
    · rw [List.find?_cons_of_pos _ (by simp [hts])]
      have hnot : ∀ u ∈ ts, u.signature ≠ s := by
        intro u hu hus
        apply hnd.1
        rw [hts, ← hus]
        exact List.mem_map_of_mem _ hu
      rw [foldl_cycleStep_get_notmem oracle now s ts _ _ hnot]
      rw [← hts]
      exact applyDecision_get_self oracle now db t
    · rw [List.find?_cons_of_neg _ (by simp [hts])]
      rw [ih _ _ hnd.2]
      have hget := applyDecision_get_ne oracle now db t s hts
      rw [hget]

theorem join_filter_nil (oracle : String → LedgerView) (s : String)
    (txs : List TransactionRecord) (h : ∀ t ∈ txs, t.signature ≠ s) :
    ((txs.map (fun t => recordReceipts t (oracle t.signature))).flatten).filter
      (fun rc => rc.sig = s) = [] := by
  induction txs with
  | nil => rfl
  | cons t ts ih =>
    rw [List.map_cons, List.flatten_cons, List.filter_append]
    rw [recordReceipts_filter_ne _ _ _ (h t (List.mem_cons_self _ _))]
    rw [ih (fun u hu => h u (List.mem_cons_of_mem _ hu))]
    rfl

theorem join_filter (oracle : String → LedgerView) (s : String)
    (txs : List TransactionRecord) (hnd : (txs.map (·.signature)).Nodup) :
    ((txs.map (fun t => recordReceipts t (oracle t.signature))).flatten).filter
      (fun rc => rc.sig = s) =
      match txs.find? (fun t => t.signature = s) with
      | none => []
      | some t => recordReceipts t (oracle s) := by
  induction txs with
  | nil => rfl
  | cons t ts ih =>
    rw [List.map_cons, List.nodup_cons] at hnd
    rw [List.map_cons, List.flatten_cons, List.filter_append]
    by_cases hts : t.signature = s
    · rw [List.find?_cons_of_pos _ (by simp [hts])]
      rw [recordReceipts_filter_self _ _ _ hts]
      have hnot : ∀ u ∈ ts, u.signature ≠ s := by
        intro u hu hus
        apply hnd.1
        rw [hts, ← hus]
        exact List.mem_map_of_mem _ hu
      rw [join_filter_nil oracle s ts hnot, ← hts]
      simp
    · rw [List.find?_cons_of_neg _ (by simp [hts])]
      rw [recordReceipts_filter_ne _ _ _ hts, ih hnd.2]
      simp

/-! ## The cycle's snapshot -/

theorem snapshot_sig_nodup_aux (l : List (String × TransactionRecord))
    (hnd : (l.map Prod.fst).Nodup) (hsig : ∀ p ∈ l, p.2.signature = p.1) :
    (((l.map (·.2)).filter (fun r => !r.status.isTerminal)).map (·.signature)).Nodup := by
  induction l with
  | nil => exact List.nodup_nil
  | cons hd tl ih =>
    rcases hd with ⟨k, r⟩
    rw [List.map_cons, List.nodup_cons] at hnd
    have hr : r.signature = k := hsig (k, r) (List.mem_cons_self _ _)
    have htl : ∀ p ∈ tl, p.2.signature = p.1 :=
      fun p hp => hsig p (List.mem_cons_of_mem _ hp)
    rw [List.map_cons, List.filter_cons]
    by_cases hterm : !r.status.isTerminal
    · rw [if_pos hterm, List.map_cons, List.nodup_cons]
      refine ⟨?_, ih hnd.2 htl⟩
      intro hmem
      rcases List.mem_map.mp hmem with ⟨t, ht, hts⟩
      rcases List.mem_filter.mp ht with ⟨ht2, _⟩
      rcases List.mem_map.mp ht2 with ⟨p, hp, hpt⟩
      apply hnd.1
      have hpk : p.1 = k := by rw [← htl p hp, hpt, hts, hr]
      show k ∈ List.map Prod.fst tl
      rw [← hpk]
      exact List.mem_map_of_mem _ hp
    · rw [if_neg hterm]
      exact ih hnd.2 htl

theorem snapshot_find_aux (l : List (String × TransactionRecord)) (s : String)
    (hnd : (l.map Prod.fst).Nodup) (hsig : ∀ p ∈ l, p.2.signature = p.1) :
    ((l.map (·.2)).filter (fun r => !r.status.isTerminal)).find?
        (fun t => t.signature = s) =
      match (l.find? (fun p => p.1 = s)).map (·.2) with
      | none => none
      | some r => if r.status.isTerminal then none else some r := by
  induction l with
  | nil => rfl
  | cons hd tl ih =>
    rcases hd with ⟨k, r⟩
    rw [List.map_cons, List.nodup_cons] at hnd
    have hr : r.signature = k := hsig (k, r) (List.mem_cons_self _ _)
    have htl : ∀ p ∈ tl, p.2.signature = p.1 :=
      fun p hp => hsig p (List.mem_cons_of_mem _ hp)
    rw [List.map_cons, List.filter_cons]
    by_cases hks : k = s
    · rw [List.find?_cons_of_pos _ (by simp [hks])]
      by_cases hterm : r.status.isTerminal
      · rw [if_neg (by simp [hterm])]
        have hnot : ∀ t ∈ (tl.map (·.2)).filter (fun u => !u.status.isTerminal),
            t.signature ≠ s := by
          intro t ht hts
          rcases List.mem_filter.mp ht with ⟨ht2, _⟩
          rcases List.mem_map.mp ht2 with ⟨p, hp, hpt⟩
          apply hnd.1
          have hpk : p.1 = k := by rw [← htl p hp, hpt, hts, hks]
          show k ∈ List.map Prod.fst tl
          rw [← hpk]
          exact List.mem_map_of_mem _ hp
        rw [List.find?_eq_none.mpr (fun t ht => by simpa using hnot t ht)]
        simp [hterm]
      · rw [if_pos (by simp [hterm])]
        rw [List.find?_cons_of_pos _ (by simp [hr, hks])]
        simp [hterm]
    · rw [List.find?_cons_of_neg _ (by simp [hks])]
      by_cases hterm : r.status.isTerminal
      · rw [if_neg (by simp [hterm])]
        exact ih hnd.2 htl
      · rw [if_pos (by simp [hterm])]
        rw [List.find?_cons_of_neg _ (by simp [hr, hks])]
        exact ih hnd.2 htl

theorem snapshot_sig_nodup (db : Db) (hwf : db.WF) :
    (db.getNonTerminalTransactions.map (·.signature)).Nodup :=
  snapshot_sig_nodup_aux db.transactions hwf.1 hwf.2

theorem snapshot_find (db : Db) (s : String) (hwf : db.WF) :
    db.getNonTerminalTransactions.find? (fun t => t.signature = s) =
      match db.getTransaction s with
      | none => none
      | some r => if r.status.isTerminal then none else some r :=
  snapshot_find_aux db.transactions s hwf.1 hwf.2

/-! ## One cycle, observed at a fixed signature -/

theorem processTransactions_get (db : Db) (oracle : String → LedgerView)
    (now : Nat) (s : String) (hwf : db.WF) :
    (processTransactions db oracle now).1.getTransaction s =
      match db.getTransaction s with
      | none => none
      | some r =>
        if r.status.isTerminal then some r
        else
          match recordDecision r (oracle s) with
          | none => some r
          | some st => some { r with status := st, updatedAt := now } := by
  unfold processTransactions
  rw [foldl_cycleStep_get oracle now s _ _ _ (snapshot_sig_nodup db hwf)]
  rw [snapshot_find db s hwf]
  cases hget : db.getTransaction s with
  | none => rfl
  | some r =>
    dsimp only
    by_cases hterm : r.status.isTerminal
    · simp [hterm]
    · cases hd : recordDecision r (oracle s) <;> simp [hterm, hd]

theorem processTransactions_receipts (db : Db) (oracle : String → LedgerView)
    (now : Nat) (s : String) (hwf : db.WF) :
    (processTransactions db oracle now).2.filter (fun rc => rc.sig = s) =
      match db.getTransaction s with
      | none => []
      | some r => if r.status.isTerminal then [] else recordReceipts r (oracle s) := by
  unfold processTransactions
  rw [foldl_cycleStep_receipts]
  rw [List.nil_append]
  rw [join_filter oracle s _ (snapshot_sig_nodup db hwf)]
  rw [snapshot_find db s hwf]
  cases hget : db.getTransaction s with
  | none => rfl
  | some r =>
    dsimp only
    by_cases hterm : r.status.isTerminal <;> simp [hterm]

theorem applyDecision_WF (oracle : String → LedgerView) (now : Nat) (db : Db)
    (t : TransactionRecord) (hwf : db.WF) : (applyDecision oracle now db t).WF := by
  unfold applyDecision
  cases recordDecision t (oracle t.signature) with
  | none => exact hwf
  | some st => exact WF_update db t.signature st now hwf

theorem foldl_cycleStep_WF (oracle : String → LedgerView) (now : Nat)
    (txs : List TransactionRecord) :
    ∀ (db : Db) (racc : List Receipt), db.WF →
      (txs.foldl (cycleStep oracle now) (db, racc)).1.WF := by
  induction txs with
  | nil => intro db racc hwf; exact hwf
  | cons t ts ih =>
    intro db racc hwf
    rw [List.foldl_cons, cycleStep_char]
    exact ih _ _ (applyDecision_WF oracle now db t hwf)

theorem processTransactions_WF (db : Db) (oracle : String → LedgerView)
    (now : Nat) (hwf : db.WF) : (processTransactions db oracle now).1.WF :=
  foldl_cycleStep_WF oracle now _ db [] hwf

/-- The pure decision of one record-processing step is `FAILED` exactly when
the record's transaction carries a signature, the status query answered
empty, the blockhash has expired, the finalized height has reached
`lastValidBlockHeight`, the history search answered empty, and the direct
lookup did NOT answer with a record (it answered empty or threw). -/
theorem recordDecision_failed_iff (tx : TransactionRecord) (L : LedgerView) :
    recordDecision tx L = some FAILED ↔
      (tx.serializedTransaction.firstSignature.isSome ∧
       L.status = .ok none ∧ L.blockhashValid = .ok false ∧
       (∃ bh, L.epochBlockHeight = .ok bh ∧ tx.lastValidBlockHeight ≤ bh.getD 0) ∧
       L.historyStatus = .ok none ∧ ∀ u, L.fullTx ≠ .ok (some u)) := by
  unfold recordDecision
  cases hfs : tx.serializedTransaction.firstSignature with
  | none => simp [hfs]
  | some s0 =>
  cases hst : L.status with
  | error e => simp [hst]
  | ok o =>
  cases o with
  | some st =>
    cases hcs : st.confirmationStatus with
    | none => simp [hst, hcs]
    | some s =>
      by_cases h1 : s = "processed"
      · by_cases h2 : tx.status ≠ PROCESSED <;> simp [h1, h2, hst, hcs]
      · by_cases h3 : s = "confirmed"
        · by_cases h4 : tx.status ≠ CONFIRMED ∧ tx.status ≠ FINALIZED
          · simp only [hcs]
            simp only [if_neg h1, if_pos h3, if_pos h4]
            simp [hst]
          · simp only [hcs]
            simp only [if_neg h1, if_pos h3, if_neg h4]
            simp [hst]
        · by_cases h5 : s = "finalized"
          · by_cases h6 : tx.status ≠ FINALIZED <;> simp [h1, h3, h5, h6, hst, hcs]
          · simp [h1, h3, h5, hst, hcs]
  | none =>
    cases hbv : L.blockhashValid with
    | error e => simp [hst, hbv]
    | ok b =>
    cases b with
    | true =>
      cases hsr : L.sendResult with
      | error e => simp [hst, hbv]
      | ok u => by_cases hcr : tx.status = CREATED <;> simp [hst, hbv, hcr]
    | false =>
      cases hep : L.epochBlockHeight with
      | error e => simp [hst, hbv, hep]
      | ok bh =>
        by_cases hlt : bh.getD 0 < tx.lastValidBlockHeight
        · simp only [if_pos hlt]
          simp [hst, hbv, hep]
          omega
        · simp only [if_neg hlt]
          cases hhs : L.historyStatus with
          | error e => simp [hst, hbv, hep, hhs]
          | ok ho =>
          cases ho with
          | some h2 => simp [hst, hbv, hep, hhs]
          | none =>
            cases hft : L.fullTx with
            | error e =>
              simp [hst, hbv, hep, hhs, hft]
              omega
            | ok fo =>
              cases fo with
              | some u => simp [hst, hbv, hep, hhs, hft]
              | none =>
                simp [hst, hbv, hep, hhs, hft]
                omega

/-- A nonterminal status is neither FAILED nor FINALIZED. -/
theorem nonterminal_ne (st : TransactionStatus) (h : st.isTerminal = false) :
    st ≠ FAILED ∧ st ≠ FINALIZED := by
  cases st <;> simp_all [TransactionStatus.isTerminal]

/-- Claim C5 (amended): a non-terminal record is marked FAILED by a cycle
if and only if its status query answered empty, its blockhash expired, the
finalized height reached `lastValidBlockHeight`, the history search
answered empty, and the direct lookup did not produce a record - where an
RPC error in the direct lookup counts the same as an empty answer (the
catch block falls through to the FAILED write).  Once FAILED, every later
cycle leaves the record FAILED, so it is marked exactly once. -/
theorem c5_amended_failure_determination (db : Db)
    (oracle : String → LedgerView) (now : Nat) (s : String)
    (tx : TransactionRecord) (hwf : db.WF)
    (hget : db.getTransaction s = some tx)
    (hterm : tx.status.isTerminal = false) :
    ((((processTransactions db oracle now).1.getTransaction s).map (·.status) =
        some FAILED) ↔
      (tx.serializedTransaction.firstSignature.isSome ∧
       (oracle s).status = .ok none ∧
       (oracle s).blockhashValid = .ok false ∧
       (∃ bh, (oracle s).epochBlockHeight = .ok bh ∧
         tx.lastValidBlockHeight ≤ bh.getD 0) ∧
       (oracle s).historyStatus = .ok none ∧
       ∀ u, (oracle s).fullTx ≠ .ok (some u))) ∧
    (∀ (db2 : Db) (oracle2 : String → LedgerView) (now2 : Nat), db2.WF →
      (db2.getTransaction s).map (·.status) = some FAILED →
      ((processTransactions db2 oracle2 now2).1.getTransaction s).map (·.status) =
        some FAILED) := by
  constructor
  · rw [← recordDecision_failed_iff tx (oracle s)]
    rw [processTransactions_get db oracle now s hwf, hget]
    dsimp only
    rw [if_neg (by simp [hterm])]
    cases hd : recordDecision tx (oracle s) with
    | none => simp [(nonterminal_ne tx.status hterm).1]
    | some st => simp
  · intro db2 oracle2 now2 hwf2 hst2
    rw [processTransactions_get db2 oracle2 now2 s hwf2]
    cases hget2 : db2.getTransaction s with
    | none => rw [hget2] at hst2; cases hst2
    | some r =>
      rw [hget2] at hst2
      have hrf : r.status = FAILED := by simpa using hst2
      dsimp only
      rw [if_pos (by simp [hrf, TransactionStatus.isTerminal])]
      simpa using hst2

/-- Witness for the amended C5 at the fixture: the submitted record whose
direct lookup throws is marked FAILED by the cycle, and a later cycle
leaves it FAILED. -/
theorem c5_amended_failure_determination_witness :
    Db.WF dbSubmitted ∧
    dbSubmitted.getTransaction "SenderSig0" = some recordSubmitted ∧
    recordSubmitted.status.isTerminal = false ∧
    (((((processTransactions dbSubmitted (fun _ => viewLookupThrows) 11).1.getTransaction
          "SenderSig0").map (·.status) = some FAILED) ↔
      (recordSubmitted.serializedTransaction.firstSignature.isSome ∧
       ((fun (_ : String) => viewLookupThrows) "SenderSig0").status = .ok none ∧
       ((fun (_ : String) => viewLookupThrows) "SenderSig0").blockhashValid = .ok false ∧
       (∃ bh, ((fun (_ : String) => viewLookupThrows) "SenderSig0").epochBlockHeight = .ok bh ∧
         recordSubmitted.lastValidBlockHeight ≤ bh.getD 0) ∧
       ((fun (_ : String) => viewLookupThrows) "SenderSig0").historyStatus = .ok none ∧
       ∀ u, ((fun (_ : String) => viewLookupThrows) "SenderSig0").fullTx ≠ .ok (some u)) ) ∧
    (∀ (db2 : Db) (oracle2 : String → LedgerView) (now2 : Nat), db2.WF →
      (db2.getTransaction "SenderSig0").map (·.status) = some FAILED →
      ((processTransactions db2 oracle2 now2).1.getTransaction "SenderSig0").map (·.status) =
        some FAILED)) :=
  ⟨⟨by decide, by decide⟩, rfl, by decide,
    c5_amended_failure_determination dbSubmitted (fun _ => viewLookupThrows) 11
      "SenderSig0" recordSubmitted ⟨by decide, by decide⟩ rfl (by decide)⟩

/-- Claim C6: over any run of reconciliation cycles, the settlement
notification for a given record is emitted at most once; it is emitted
exactly once precisely when the record first transitions into FINALIZED
during the run, and a record already FINALIZED stays FINALIZED and never
emits again. -/
theorem c6_receipt_exactly_once (db : Db) (oracles : List (String → LedgerView))
    (now : Nat) (s : String) (hwf : db.WF) :
    ((runCycles db oracles now).2.filter (fun rc => rc.sig = s)).length ≤ 1 ∧
    ((db.getTransaction s).map (·.status) = some FINALIZED →
      ((runCycles db oracles now).1.getTransaction s).map (·.status) = some FINALIZED ∧
      ((runCycles db oracles now).2.filter (fun rc => rc.sig = s)).length = 0) ∧
    ((db.getTransaction s).map (·.status) ≠ some FINALIZED →
      (((runCycles db oracles now).1.getTransaction s).map (·.status) = some FINALIZED ↔
        ((runCycles db oracles now).2.filter (fun rc => rc.sig = s)).length = 1)) := by
  induction oracles generalizing db now with
  | nil =>
    refine ⟨by simp [runCycles], fun h => ⟨h, by simp [runCycles]⟩, fun h => ?_⟩
    simp [runCycles]
    simpa using h
  | cons o os ih =>
    have hwf1 := processTransactions_WF db o now hwf
    obtain ⟨ihA, ihB, ihC⟩ := ih (processTransactions db o now).1 (now + 1) hwf1
    have hget1 := processTransactions_get db o now s hwf
    have hrec1 := processTransactions_receipts db o now s hwf
    simp only [runCycles]
    rw [List.filter_append, List.length_append]
    cases hget : db.getTransaction s with
    | none =>
      rw [hget] at hget1 hrec1
      dsimp only at hget1 hrec1
      rw [hrec1]
      have h3 := ihC (by rw [hget1]; simp)
      refine ⟨by simpa using ihA, ?_, ?_⟩
      · intro h
        cases h
      · intro h
        simpa using h3
    | some r =>
      rw [hget] at hget1 hrec1
      dsimp only at hget1 hrec1
      by_cases hterm : r.status.isTerminal
      · rw [if_pos hterm] at hget1
        rw [if_pos hterm] at hrec1
        have hstat1 : ((processTransactions db o now).1.getTransaction s).map (·.status)
            = some r.status := by rw [hget1]; rfl
        rw [hrec1]
        by_cases hfin : r.status = FINALIZED
        · obtain ⟨hB1, hB2⟩ := ihB (by rw [hstat1, hfin])
          refine ⟨by simp [hB2], ?_, ?_⟩
          · intro _
            exact ⟨hB1, by simp [hB2]⟩
          · intro h
            exact absurd (by simp [hfin]) h
        · have h3 := ihC (by rw [hstat1]; simp [hfin])
          refine ⟨by simpa using ihA, ?_, ?_⟩
          · intro h
            exact absurd (by simpa using h) hfin
          · intro h
            simpa using h3
      · rw [if_neg hterm] at hget1
        rw [if_neg hterm] at hrec1
        rw [hrec1]
        cases hd : recordDecision r (o s) with
        | none =>
          rw [hd] at hget1
          dsimp only at hget1
          have hrr : recordReceipts r (o s) = [] := by simp [recordReceipts, hd]
          have hstat1 : ((processTransactions db o now).1.getTransaction s).map (·.status)
              = some r.status := by rw [hget1]; rfl
          have h3 := ihC (by rw [hstat1]; simp [(nonterminal_ne r.status (by simpa using hterm)).2])
          refine ⟨by simpa [hrr] using ihA, ?_, ?_⟩
          · intro h
            exact absurd (by simpa using h) (nonterminal_ne r.status (by simpa using hterm)).2
          · intro h
            simpa [hrr] using h3
        | some st =>
          rw [hd] at hget1
          dsimp only at hget1
          have hstat1 : ((processTransactions db o now).1.getTransaction s).map (·.status)
              = some st := by rw [hget1]; rfl
          by_cases hsf : st = FINALIZED
          · have hrr : recordReceipts r (o s) =
                [⟨r.signature, r.sender, r.recipient, r.amount, FINALIZED⟩] := by
              simp [recordReceipts, hd, hsf]
            obtain ⟨hB1, hB2⟩ := ihB (by rw [hstat1, hsf])
            refine ⟨by simp [hrr, hB2], ?_, ?_⟩
            · intro h
              exact absurd (by simpa using h) (nonterminal_ne r.status (by simpa using hterm)).2
            · intro _
              constructor
              · intro _
                simp [hrr, hB2]
              · intro _
                exact hB1
          · have hrr : recordReceipts r (o s) = [] := by simp [recordReceipts, hd, hsf]
            have h3 := ihC (by rw [hstat1]; simp [hsf])
            refine ⟨by simpa [hrr] using ihA, ?_, ?_⟩
            · intro h
              exact absurd (by simpa using h) (nonterminal_ne r.status (by simpa using hterm)).2
            · intro h
              simpa [hrr] using h3

/-- Witness for C6: one cycle in which the ledger reports "finalized" for
the submitted fixture record. -/
theorem c6_receipt_exactly_once_witness :
    Db.WF dbSubmitted ∧
    (((runCycles dbSubmitted [fun _ => viewFinalized] 12).2.filter
        (fun rc => rc.sig = "SenderSig0")).length ≤ 1 ∧
     ((dbSubmitted.getTransaction "SenderSig0").map (·.status) = some FINALIZED →
       ((runCycles dbSubmitted [fun _ => viewFinalized] 12).1.getTransaction
           "SenderSig0").map (·.status) = some FINALIZED ∧
       ((runCycles dbSubmitted [fun _ => viewFinalized] 12).2.filter
           (fun rc => rc.sig = "SenderSig0")).length = 0) ∧
     ((dbSubmitted.getTransaction "SenderSig0").map (·.status) ≠ some FINALIZED →
       (((runCycles dbSubmitted [fun _ => viewFinalized] 12).1.getTransaction
            "SenderSig0").map (·.status) = some FINALIZED ↔
         ((runCycles dbSubmitted [fun _ => viewFinalized] 12).2.filter
             (fun rc => rc.sig = "SenderSig0")).length = 1))) :=
  ⟨⟨by decide, by decide⟩,
    c6_receipt_exactly_once dbSubmitted [fun _ => viewFinalized] 12 "SenderSig0"
      ⟨by decide, by decide⟩⟩

/-! ## Admission idempotence (C2) -/

theorem validateTransaction_users_only (relayerPk : Pubkey) (tx : Tx)
    (db db2 : Db) (h : db.users = db2.users) :
    validateTransaction relayerPk db tx = validateTransaction relayerPk db2 tx := by
  rcases db with ⟨t1, u1⟩
  rcases db2 with ⟨t2, u2⟩
  simp only at h
  subst h
  rcases tx with ⟨fp, rb, ixs, sigs⟩
  rcases ixs with _ | ⟨a, _ | ⟨b, _ | ⟨c, t⟩⟩⟩ <;> rfl

theorem addTransaction_users (db : Db) (r : TransactionRecord) :
    (db.addTransaction r).users = db.users := by
  unfold Db.addTransaction
  split <;> rfl

theorem getTransaction_add_self (db : Db) (r : TransactionRecord)
    (h : db.getTransaction r.signature = none) :
    (db.addTransaction r).getTransaction r.signature = some r := by
  unfold Db.getTransaction at h
  have hfind : db.transactions.find? (fun p => p.1 = r.signature) = none := by
    cases hf : db.transactions.find? (fun p => p.1 = r.signature) with
    | none => rfl
    | some x => rw [hf] at h; cases h
  have hany : db.transactions.any (fun p => p.1 = r.signature) = false := by
    rw [List.any_eq_false]
    intro p hp
    have := List.find?_eq_none.mp hfind p hp
    simpa using this
  unfold Db.addTransaction Db.getTransaction
  rw [if_neg (by simp [hany])]
  simp only [List.find?_append, hfind, Option.none_or]
  rw [List.find?_cons_of_pos _ (by simp)]
  rfl

theorem filter_key_length_one (l : List (String × TransactionRecord)) (k : String)
    (hnd : (l.map Prod.fst).Nodup) (x : String × TransactionRecord)
    (hfind : l.find? (fun p => p.1 = k) = some x) :
    (l.filter (fun p => p.1 = k)).length = 1 := by
  induction l with
  | nil => cases hfind
  | cons hd tl ih =>
    rcases hd with ⟨a, r⟩
    rw [List.map_cons, List.nodup_cons] at hnd
    by_cases hak : a = k
    · rw [List.filter_cons_of_pos (by simp [hak])]
      have hnil : tl.filter (fun p => p.1 = k) = [] := by
        rw [List.filter_eq_nil]
        intro p hp hpk
        apply hnd.1
        have hpa : p.1 = a := by
          rw [hak]
          simpa using hpk
        show a ∈ List.map Prod.fst tl
        rw [← hpa]
        exact List.mem_map_of_mem _ hp
      rw [hnil]
      rfl
    · rw [List.filter_cons_of_neg (by simp [hak])]
      rw [List.find?_cons_of_neg _ (by simp [hak])] at hfind
      exact ih hnd.2 hfind

theorem relayTransaction_second (relayerPk : Pubkey) (tx : Tx) (lvbh : Nat)
    (db : Db) (now : Nat) :
    (relayTransaction relayerPk (some tx) lvbh db now).1.success = false ∨
    ((validateTransaction relayerPk db tx).valid = true ∧
     ∃ id, ((tx.addSignature relayerPk).signatures.get? 1).bind (·.signature) = some id ∧
       (tx.addSignature relayerPk).firstSignature.isSome ∧
       (relayTransaction relayerPk (some tx) lvbh db now).1 = ⟨true, some id, none⟩ ∧
       ((db.getTransaction id ≠ none ∧
          (relayTransaction relayerPk (some tx) lvbh db now).2 = db) ∨
        (db.getTransaction id = none ∧
          (relayTransaction relayerPk (some tx) lvbh db now).2 =
            db.addTransaction
              { signature := id
                serializedTransaction := tx.addSignature relayerPk
                sender := (validateTransaction relayerPk db tx).sender.getD (.raw "")
                recipient := (validateTransaction relayerPk db tx).recipient.getD (.raw "")
                amount := (validateTransaction relayerPk db tx).amount.getD 0
                lastValidBlockHeight := lvbh
                status := CREATED
                createdAt := now
                updatedAt := now }))) := by
  simp only [relayTransaction]
  by_cases hv : (validateTransaction relayerPk db tx).valid = false
  · rw [if_pos hv]
    exact Or.inl rfl
  · rw [if_neg hv]
    rcases h1 : (tx.addSignature relayerPk).firstSignature with _ | s1
    · exact Or.inl rfl
    · rcases h2 : ((tx.addSignature relayerPk).signatures.get? 1).bind
          (fun x => x.signature) with _ | s2
      · exact Or.inl rfl
      · dsimp only
        rcases h3 : db.getTransaction s2 with _ | rr
        · exact Or.inr ⟨by simpa using hv, s2, rfl, by simp [h1], rfl,
            Or.inr ⟨h3, rfl⟩⟩
        · exact Or.inr ⟨by simpa using hv, s2, rfl, by simp [h1], rfl,
            Or.inl ⟨by simp [h3], rfl⟩⟩


/-- Claim C2 (amended): re-submitting the identical transaction bytes after
a successful first admission returns the very same result (same id), leaves
the store untouched, and the store holds exactly one record under that id.
The gate does, however, re-run full validation before its duplicate check,
which is why this needs the registry state to still validate the
transaction - see the counterexample. -/
theorem c2_amended_resubmission_idempotent (relayerPk : Pubkey) (tx : Tx) (lvbh : Nat)
    (db : Db) (now now2 : Nat) (hwf : db.WF)
    (h1 : (relayTransaction relayerPk (some tx) lvbh db now).1.success = true) :
    (relayTransaction relayerPk (some tx) lvbh
        ((relayTransaction relayerPk (some tx) lvbh db now).2) now2).1 =
      (relayTransaction relayerPk (some tx) lvbh db now).1 ∧
    (relayTransaction relayerPk (some tx) lvbh
        ((relayTransaction relayerPk (some tx) lvbh db now).2) now2).2 =
      (relayTransaction relayerPk (some tx) lvbh db now).2 ∧
    ∃ id, (relayTransaction relayerPk (some tx) lvbh db now).1.transactionId = some id ∧
      (((relayTransaction relayerPk (some tx) lvbh db now).2).transactions.filter
        (fun p => p.1 = id)).length = 1 := by
  rcases relayTransaction_second relayerPk tx lvbh db now with
    hf | ⟨hv, id, hid, hfs, hres, hcase⟩
  · rw [hf] at h1
    cases h1
  · rw [hres]
    set D := (relayTransaction relayerPk (some tx) lvbh db now).2 with hD
    have husers : D.users = db.users := by
      rcases hcase with ⟨_, hdb⟩ | ⟨_, hdb⟩
      · rw [hdb]
      · rw [hdb, addTransaction_users]
    have hv1 : validateTransaction relayerPk D tx = validateTransaction relayerPk db tx :=
      validateTransaction_users_only relayerPk tx D db husers
    have hgetD : ∃ x, D.getTransaction id = some x := by
      rcases hcase with ⟨hne, hdb⟩ | ⟨hnone, hdb⟩
      · rcases hy : db.getTransaction id with _ | y
        · exact absurd hy hne
        · exact ⟨y, by rw [hdb]; exact hy⟩
      · rw [hdb]
        exact ⟨_, getTransaction_add_self db _ hnone⟩
    obtain ⟨x, hx⟩ := hgetD
    have hsecond : relayTransaction relayerPk (some tx) lvbh D now2 =
        (⟨true, some id, none⟩, D) := by
      simp only [relayTransaction]
      rw [hv1]
      rw [if_neg (by simp [hv])]
      rcases hfs1 : (tx.addSignature relayerPk).firstSignature with _ | s1
      · rw [hfs1] at hfs
        cases hfs
      · dsimp only
        rw [hid]
        dsimp only
        rw [hx]
    refine ⟨by rw [hsecond], by rw [hsecond], id, rfl, ?_⟩
    rcases hcase with ⟨hne, hdb⟩ | ⟨hnone, hdb⟩
    · rw [hdb]
      rcases hy : db.getTransaction id with _ | y
      · exact absurd hy hne
      · unfold Db.getTransaction at hy
        cases hfp : db.transactions.find? (fun p => p.1 = id) with
        | none => rw [hfp] at hy; cases hy
        | some p => exact filter_key_length_one db.transactions id hwf.1 p hfp
    · rw [hdb]
      have hfind : db.transactions.find? (fun p => p.1 = id) = none := by
        unfold Db.getTransaction at hnone
        cases hfp : db.transactions.find? (fun p => p.1 = id) with
        | none => rfl
        | some p => rw [hfp] at hnone; cases hnone
      have hany : db.transactions.any (fun p => p.1 = id) = false := by
        rw [List.any_eq_false]
        intro p hp
        have := List.find?_eq_none.mp hfind p hp
        simpa using this
      unfold Db.addTransaction
      rw [if_neg (by simp [hany])]
      dsimp only
      rw [List.filter_append]
      have hnil : db.transactions.filter (fun p => p.1 = id) = [] := by
        rw [List.filter_eq_nil]
        intro p hp
        have := List.find?_eq_none.mp hfind p hp
        simpa using this
      rw [hnil]
      simp

/-- Counterexample to claim C2 as stated: admission re-validates from
scratch on every call.  With the admitted record already stored under the
transaction id but the user registry empty, re-submitting the identical
bytes is REJECTED by re-validation ("Sender is not a registered user")
instead of returning the stored id - the duplicate check is only reached
after full validation. -/
theorem c2_counterexample :
    dbRecordOnly.getTransaction "SenderSig0" = some record0 ∧
    (relayTransaction relayer0 (some tx0) 500 db0 7).1 =
      ⟨true, some "SenderSig0", none⟩ ∧
    (relayTransaction relayer0 (some tx0) 500 dbRecordOnly 8).1.success = false ∧
    (relayTransaction relayer0 (some tx0) 500 dbRecordOnly 8).1.error =
      some "Sender is not a registered user" :=
  ⟨rfl, rfl, by decide, by decide⟩

/-- Witness for the amended C2 at the fixture transaction. -/
theorem c2_amended_resubmission_idempotent_witness :
    Db.WF db0 ∧
    (relayTransaction relayer0 (some tx0) 500 db0 7).1.success = true ∧
    ((relayTransaction relayer0 (some tx0) 500
        ((relayTransaction relayer0 (some tx0) 500 db0 7).2) 8).1 =
      (relayTransaction relayer0 (some tx0) 500 db0 7).1 ∧
     (relayTransaction relayer0 (some tx0) 500
        ((relayTransaction relayer0 (some tx0) 500 db0 7).2) 8).2 =
      (relayTransaction relayer0 (some tx0) 500 db0 7).2 ∧
     ∃ id, (relayTransaction relayer0 (some tx0) 500 db0 7).1.transactionId = some id ∧
       (((relayTransaction relayer0 (some tx0) 500 db0 7).2).transactions.filter
         (fun p => p.1 = id)).length = 1) :=
  ⟨⟨by decide, by decide⟩, by decide,
    c2_amended_resubmission_idempotent relayer0 tx0 500 db0 7 8
      ⟨by decide, by decide⟩ (by decide)⟩

end Remit
